import Mathlib

/-!
Verification of the conversational memory engine in `bot.py`.

The Python source is shallowly embedded: pure functions become Lean
functions, the mutable profile dictionary and the scheduler state become
explicit state passing, Python `float` arithmetic on the bounded scores
and traits is modelled over `ℚ`, and the two `random.random()` draws of
the decision policy are injected as explicit rational parameters.
-/

namespace BydlanBot

/-- Model of Python `str.lower` restricted to the alphabets that occur in
the keyword tables of `bot.py` (ASCII letters and the Russian Cyrillic
block, including Ё). All other characters are left unchanged. -/
def pyCharLower (c : Char) : Char :=
  if 'A' ≤ c ∧ c ≤ 'Z' then Char.ofNat (c.toNat + 32)
  else if 'А' ≤ c ∧ c ≤ 'Я' then Char.ofNat (c.toNat + 32)
  else if c = 'Ё' then 'ё'
  else c

/-- `text.lower()` on a whole string. -/
def pyLower (s : String) : String :=
  ⟨s.data.map pyCharLower⟩

/-- `pat` starts the list `l` (helper for the substring test). -/
def leadsWith : List Char → List Char → Bool
  | [], _ => true
  | _ :: _, [] => false
  | p :: ps, c :: cs => p = c && leadsWith ps cs

/-- `pat` occurs as a contiguous sublist of `l`. -/
def subList (pat : List Char) : List Char → Bool
  | [] => pat.isEmpty
  | c :: rest => leadsWith pat (c :: rest) || subList pat rest

/-- Model of Python's `pat in hay` substring test. -/
def strContains (hay pat : String) : Bool :=
  subList pat.data hay.data

/-- `Message` dataclass of `bot.py` (fields in source order; `float`
fields modelled over `ℚ`). -/
structure Message where
  user_id : Int
  username : String
  text : String
  timestamp : ℚ
  chat_id : Int
  message_id : Int
  is_reply : Bool := false
  reply_to_user : Option String := none
  sentiment : Option String := none
  importance : ℚ := 1/2
  has_image : Bool := false
  image_description : Option String := none

/-- The three fixed trait keys of the `personality_traits` dict:
`агрессивность`, `дружелюбность`, `юмор`. -/
structure PersonalityTraits where
  aggressiveness : ℚ
  friendliness : ℚ
  humor : ℚ

/-- `UserProfile` dataclass of `bot.py`. -/
structure UserProfile where
  user_id : Int
  username : String
  personality_traits : PersonalityTraits
  interests : List String
  interaction_count : ℕ
  last_seen : ℚ
  relationship_level : String

/-- `positive_words` list in `AdvancedContextManager._analyze_sentiment`. -/
def positive_words : List String :=
  ["круто", "отлично", "спасибо", "класс", "зачёт", "топ", "ржака", "смешно"]

/-- `negative_words` list in `AdvancedContextManager._analyze_sentiment`. -/
def negative_words : List String :=
  ["хуйня", "дерьмо", "говно", "плохо", "тупо", "бред"]

/-- `pos_count` of `_analyze_sentiment`: how many positive keywords occur
in the lower-cased text. -/
def posCount (text : String) : ℕ :=
  (positive_words.filter (fun w => strContains (pyLower text) w)).length

/-- `neg_count` of `_analyze_sentiment`. -/
def negCount (text : String) : ℕ :=
  (negative_words.filter (fun w => strContains (pyLower text) w)).length

/-- `AdvancedContextManager._analyze_sentiment`. -/
def analyze_sentiment (text : String) : String :=
  if posCount text > negCount text then "positive"
  else if negCount text > posCount text then "negative"
  else "neutral"

/-- Bot-address keywords used by `_calculate_importance`. -/
def importance_mention_words : List String := ["бот", "bot", "димон"]

/-- `tech_words` local list of `_calculate_importance`. -/
def importance_tech_words : List String :=
  ["код", "программ", "баг", "сервер", "база", "api"]

/-- The text-dependent partial sum of `_calculate_importance` (the value
accumulated just before the attachment branch); proof helper. -/
def importanceBase (m : Message) : ℚ :=
  let i1 : ℚ := 1/2
  let i2 := if m.text.length > 100 then i1 + 1/5 else i1
  let i3 := if strContains m.text "?" then i2 + 1/10 else i2
  let i4 := if importance_mention_words.any (fun w => strContains (pyLower m.text) w)
            then i3 + 3/10 else i3
  if importance_tech_words.any (fun w => strContains (pyLower m.text) w)
  then i4 + 1/5 else i4

/-- `AdvancedContextManager._calculate_importance`. -/
def calculate_importance (m : Message) : ℚ :=
  let i1 : ℚ := 1/2
  let i2 := if m.text.length > 100 then i1 + 1/5 else i1
  let i3 := if strContains m.text "?" then i2 + 1/10 else i2
  let i4 := if importance_mention_words.any (fun w => strContains (pyLower m.text) w)
            then i3 + 3/10 else i3
  let i5 := if importance_tech_words.any (fun w => strContains (pyLower m.text) w)
            then i4 + 1/5 else i4
  let i6 := if m.has_image then i5 + 3/10 else i5
  min i6 1

/-- `bot_mentions` list of `MessageAnalyzer.__init__`. -/
def bot_mentions : List String := ["бот", "bot", "димон", "@"]

/-- `greeting_words` list of `MessageAnalyzer.__init__`. -/
def greeting_words : List String :=
  ["привет", "здарова", "салам", "хай", "hello", "дарова"]

/-- `question_indicators` list of `MessageAnalyzer.__init__`. -/
def question_indicators : List String :=
  ["?", "как", "что", "где", "когда", "почему", "зачем", "можешь", "помоги"]

/-- `tech_words` list of `MessageAnalyzer.__init__` (more entries than the
local list of `_calculate_importance`). -/
def analyzer_tech_words : List String :=
  ["код", "программ", "баг", "сервер", "база", "api", "фронт", "бэк", "js", "python"]

/-- `relationship_bonus` computation at the top of
`MessageAnalyzer.should_respond`. -/
def relationshipBonus (profile : Option UserProfile) : ℚ :=
  match profile with
  | none => 0
  | some p =>
    if p.relationship_level = "братан" then 3/10
    else if p.relationship_level = "приятель" then 1/5
    else if p.relationship_level = "знакомый" then 1/10
    else 0

/-- `MessageAnalyzer.should_respond`. The two `random.random()` draws of
the probabilistic branches are injected as the parameters `r1` and `r2`
(each intended as a uniform draw in `[0,1)`); `has_image` is accepted and
ignored, as in the source. Returns the `(should_respond, reason)` pair. -/
def should_respond (message : String) (profile : Option UserProfile)
    (is_private : Bool) (has_image : Bool) (r1 r2 : ℚ) : Bool × String :=
  if is_private then (true, "private_message")
  else
    let message_lower := pyLower message
    let bonus := relationshipBonus profile
    let _ := has_image
    if bot_mentions.any (fun w => strContains message_lower w) then
      (true, "direct_mention")
    else if analyzer_tech_words.any (fun w => strContains message_lower w) then
      (true, "tech_question")
    else if question_indicators.any (fun w => strContains message_lower w) then
      (true, "question_to_chat")
    else if greeting_words.any (fun w => strContains message_lower w) then
      (true, "greeting")
    else if message.length > 200 then
      (true, "long_post")
    else if (match profile with
             | some p => decide (p.interaction_count > 10)
             | none => false) && decide (r1 < 3/20 + bonus) then
      (true, "active_user")
    else if r2 < 2/25 + bonus then
      (true, "random_response")
    else
      (false, "no_reason")

/-- Initial `personality_traits` dict of a freshly created profile. -/
def initialTraits : PersonalityTraits :=
  { aggressiveness := 1/2, friendliness := 1/2, humor := 1/2 }

/-- The fresh `UserProfile` created by `_update_user_profile` when the
author is unknown. -/
def freshProfile (m : Message) : UserProfile :=
  { user_id := m.user_id
    username := m.username
    personality_traits := initialTraits
    interests := []
    interaction_count := 0
    last_seen := m.timestamp
    relationship_level := "незнакомец" }

/-- Humor-marker keywords checked by `_update_user_profile`. -/
def humor_words : List String := ["хаха", "лол", "ржака"]

/-- First statement block of `_update_user_profile`: look up or create
the profile, then bump the count and refresh last-seen and the display
name. -/
def bumpProfile (existing : Option UserProfile) (m : Message) : UserProfile :=
  let p0 := match existing with
    | some p => p
    | none => freshProfile m
  { p0 with
    interaction_count := p0.interaction_count + 1
    last_seen := m.timestamp
    username := m.username }

/-- Attachment block of `_update_user_profile`: record the meme interest
once. -/
def applyImageInterest (m : Message) (p : UserProfile) : UserProfile :=
  if m.has_image && !(p.interests.contains "мемы") then
    { p with interests := p.interests ++ ["мемы"] }
  else p

/-- Sentiment block of `_update_user_profile`: adjust aggressiveness or
friendliness by the fixed 0.1 delta. -/
def applySentimentTraits (m : Message) (p : UserProfile) : UserProfile :=
  if m.sentiment = some "negative" then
    { p with personality_traits :=
      { p.personality_traits with
        aggressiveness := p.personality_traits.aggressiveness + 1/10 } }
  else if m.sentiment = some "positive" then
    { p with personality_traits :=
      { p.personality_traits with
        friendliness := p.personality_traits.friendliness + 1/10 } }
  else p

/-- Humor block of `_update_user_profile`. -/
def applyHumorTrait (m : Message) (p : UserProfile) : UserProfile :=
  if humor_words.any (fun w => strContains (pyLower m.text) w) then
    { p with personality_traits :=
      { p.personality_traits with
        humor := p.personality_traits.humor + 1/10 } }
  else p

/-- Tier block of `_update_user_profile`: reassign the relationship tier
by the threshold chain (no assignment below all thresholds). -/
def applyTier (p : UserProfile) : UserProfile :=
  if p.interaction_count > 50 then { p with relationship_level := "братан" }
  else if p.interaction_count > 20 then { p with relationship_level := "приятель" }
  else if p.interaction_count > 5 then { p with relationship_level := "знакомый" }
  else p

/-- `AdvancedContextManager._update_user_profile`, as a pure function from
the author's previous profile (if any) and the incoming message to the
updated profile; the statement blocks of the Python function are applied
in source order. -/
def update_user_profile (existing : Option UserProfile) (m : Message) : UserProfile :=
  applyTier (applyHumorTrait m (applySentimentTraits m
    (applyImageInterest m (bumpProfile existing m))))

/-- The effect of `AdvancedContextManager.add_message` on the author's
profile: the derived `importance` and `sentiment` fields are filled in
first, then `_update_user_profile` runs. -/
def processMessage (existing : Option UserProfile) (m : Message) : UserProfile :=
  update_user_profile existing
    { m with importance := calculate_importance m
             sentiment := some (analyze_sentiment m.text) }

/-- One ingestion step on the `user_profiles` dict (modelled as a
function from author id to optional profile). -/
def step (profiles : Int → Option UserProfile) (m : Message) :
    Int → Option UserProfile :=
  fun uid =>
    if uid = m.user_id then some (processMessage (profiles m.user_id) m)
    else profiles uid

/-- The `user_profiles` dict after ingesting a list of messages into a
fresh `AdvancedContextManager`. -/
def profilesAfter (ms : List Message) : Int → Option UserProfile :=
  ms.foldl step (fun _ => none)

/-- The spec's threshold table (§3 of the spec): the relationship tier
band determined by an interaction count alone. Comparison target for the
tier stored in the profile. -/
def relationshipBand (count : ℕ) : String :=
  if count > 50 then "братан"
  else if count > 20 then "приятель"
  else if count > 5 then "знакомый"
  else "незнакомец"

/-- Position of a tier name in the ordered enum
stranger → acquaintance → friend → close-friend. -/
def tierRank (level : String) : ℕ :=
  if level = "братан" then 3
  else if level = "приятель" then 2
  else if level = "знакомый" then 1
  else 0

/-- In-memory state of `VectorMemory`: the parallel `embeddings` and
`messages` lists. Embedding vectors are modelled as rational lists; the
`SentenceTransformer` encoder is an abstract parameter. -/
structure VectorMemory where
  embeddings : List (List ℚ)
  messages : List Message

/-- Dot product of two embedding vectors (`np.dot` on equal-length
vectors; trailing elements of the longer list are ignored). -/
def dot (v w : List ℚ) : ℚ :=
  (List.zipWith (fun a b => a * b) v w).sum

/-- `text_for_embedding` construction in `VectorMemory.add_message`: the
attachment description is appended when it is a truthy (non-empty)
string. -/
def textForEmbedding (m : Message) : String :=
  match m.image_description with
  | some d => if d = "" then m.text else m.text ++ " [КАРТИНКА: " ++ d ++ "]"
  | none => m.text

/-- `VectorMemory.add_message`: append the embedding and the message,
then keep only the last 1000 entries of each list. -/
def VectorMemory.add_message (encoder : String → List ℚ)
    (vm : VectorMemory) (m : Message) : VectorMemory :=
  let embeddings := vm.embeddings ++ [encoder (textForEmbedding m)]
  let messages := vm.messages ++ [m]
  if embeddings.length > 1000 then
    { embeddings := embeddings.drop (embeddings.length - 1000)
      messages := messages.drop (messages.length - 1000) }
  else
    { embeddings := embeddings, messages := messages }

/-- Adding a whole list of messages in order, starting from an empty
`VectorMemory`. -/
def addAll (encoder : String → List ℚ) (ms : List Message) : VectorMemory :=
  ms.foldl (VectorMemory.add_message encoder) ⟨[], []⟩

/-- The `similarities` array of `VectorMemory.search_similar`: dot
product of every stored embedding with the embedded query. -/
def simScores (encoder : String → List ℚ) (vm : VectorMemory)
    (query : String) : List ℚ :=
  vm.embeddings.map (fun e => dot e (encoder query))

/-- Fallback message value for out-of-range index access in the model. -/
def defaultMessage : Message :=
  { user_id := 0, username := "", text := "", timestamp := 0
    chat_id := 0, message_id := 0 }

/-- `VectorMemory.search_similar`: `np.argsort` over the similarities
(modelled by a stable merge sort of the index range in ascending score
order), keep the last `limit` indices, reverse them, and return the
messages at the indices whose similarity exceeds 0.3. -/
def VectorMemory.search_similar (encoder : String → List ℚ)
    (vm : VectorMemory) (query : String) (limit : ℕ) : List Message :=
  if vm.embeddings.isEmpty then []
  else
    let sims := simScores encoder vm query
    let sorted := (List.range sims.length).mergeSort
      (fun i j => decide (sims.getD i 0 ≤ sims.getD j 0))
    let top := (sorted.drop (sorted.length - limit)).reverse
    (top.filter (fun i => decide ((3 : ℚ)/10 < sims.getD i 0))).map
      (fun i => vm.messages.getD i defaultMessage)

/-- Result of `DatabaseManager.cleanup_old_messages`: the surviving rows
of the `messages` table, the deleted-row count that the function logs,
and the value the function returns to its caller (the Python function
body has no return statement, so this is `none`). -/
structure CleanupOutcome where
  remaining : List Message
  logged_deleted : ℕ
  returned : Option ℕ

/-- `DatabaseManager.cleanup_old_messages`: delete every row whose
`timestamp` is strictly below `now - days * 24 * 3600`, log the number of
deleted rows, return nothing. -/
def cleanup_old_messages (table : List Message) (now : ℚ) (days : ℕ) :
    CleanupOutcome :=
  let cutoff := now - (days : ℚ) * 24 * 3600
  { remaining := table.filter (fun r => !decide (r.timestamp < cutoff))
    logged_deleted := (table.filter (fun r => decide (r.timestamp < cutoff))).length
    returned := none }

/-- A value of `ScheduledMessages.get_moscow_time`, reduced to the parts
the scheduler inspects: the calendar date (as a day index, with day 0 a
Monday so that `weekdayOf = day % 7` matches Python's
`datetime.weekday`) and the hour of day. -/
structure MoscowTime where
  day : ℕ
  hour : ℕ

/-- Python `datetime.weekday()`: 0 = Monday … 6 = Sunday. -/
def weekdayOf (t : MoscowTime) : ℕ := t.day % 7

/-- Process-local state of `ScheduledMessages`: `last_greeting_date` and
`last_farewell_date`. -/
structure SchedulerState where
  last_greeting_date : Option ℕ := none
  last_farewell_date : Option ℕ := none

/-- `ScheduledMessages.should_send_greeting` at clock value `now`
(weekend check, 8:00–8:59 window, not-yet-sent-today check). -/
def should_send_greeting (now : MoscowTime) (st : SchedulerState) : Bool :=
  if weekdayOf now ≥ 5 then false
  else if ¬(8 ≤ now.hour ∧ now.hour < 9) then false
  else if st.last_greeting_date = some now.day then false
  else true

/-- `ScheduledMessages.should_send_farewell` (17:00–17:59 window). -/
def should_send_farewell (now : MoscowTime) (st : SchedulerState) : Bool :=
  if weekdayOf now ≥ 5 then false
  else if ¬(17 ≤ now.hour ∧ now.hour < 18) then false
  else if st.last_farewell_date = some now.day then false
  else true

/-- One tick of `check_scheduled_messages`: check the morning slot, and
on firing record today's date (done inside `generate_morning_greeting`,
which always receives a reply string because `ask_local_model` never
raises); then likewise for the evening slot. Returns the pair of fired
flags for the two slots together with the updated state. -/
def scheduler_tick (now : MoscowTime) (st : SchedulerState) :
    (Bool × Bool) × SchedulerState :=
  let g := should_send_greeting now st
  let st1 := if g then { st with last_greeting_date := some now.day } else st
  let f := should_send_farewell now st1
  let st2 := if f then { st1 with last_farewell_date := some now.day } else st1
  ((g, f), st2)

/-- Run the scheduler over a sequence of ticks, producing the log of
`(tick time, morning fired, evening fired)` entries and the final
state. -/
def scheduler_run : List MoscowTime → SchedulerState →
    List (MoscowTime × Bool × Bool) × SchedulerState
  | [], st => ([], st)
  | t :: ts, st =>
    let r := scheduler_tick t st
    let rest := scheduler_run ts r.2
    ((t, r.1) :: rest.1, rest.2)

/-- Outcome of the HTTP exchange inside `SmartBot.ask_local_model`, as
seen by the post-processing code: request timeout, non-200 status,
well-formed 200 response without any `choices` entry, a 200 response
with generated content, or any other raised error. -/
inductive LMOutcome where
  | timedOut : LMOutcome
  | httpError (status : ℕ) (body : String) : LMOutcome
  | noChoices : LMOutcome
  | success (content : String) : LMOutcome
  | otherError : LMOutcome

/-- Model of Python `str.strip`: drop whitespace from both ends. -/
def pyStrip (s : String) : String :=
  ⟨((s.data.dropWhile Char.isWhitespace).reverse.dropWhile
      Char.isWhitespace).reverse⟩

/-- One pass of Python `str.replace`: replace every non-overlapping
occurrence of `pat` left to right. The fuel argument is the remaining
input length; every step consumes at least one character, so the fuel
never runs out when it starts at the input length. -/
def replaceAux (pat rep : List Char) : ℕ → List Char → List Char
  | _, [] => []
  | 0, l => l
  | fuel + 1, c :: rest =>
    if leadsWith pat (c :: rest) then
      rep ++ replaceAux pat rep fuel (rest.drop (pat.length - 1))
    else
      c :: replaceAux pat rep fuel rest

/-- Python `s.replace(pat, rep)` for the non-empty patterns used by
`ask_local_model` (the empty-pattern case of Python is not needed and is
modelled as the identity). -/
def pyReplace (s pat rep : String) : String :=
  if pat.data.isEmpty then s
  else ⟨replaceAux pat.data rep.data s.data.length s.data⟩

/-- The leakage markers stripped from the model reply. -/
def garbage_markers : List String :=
  ["###", "Assistant:", "System:", "I am a", "Димон:"]

/-- The marker-stripping loop of `ask_local_model`. -/
def stripGarbage (s : String) : String :=
  garbage_markers.foldl (fun acc g => pyReplace acc g "") s

/-- Split a character list into maximal whitespace-free words (Python
`str.split()` with no arguments); `cur` accumulates the current word in
reverse. -/
def wordsAux : List Char → List Char → List (List Char)
  | [], cur => if cur.isEmpty then [] else [cur.reverse]
  | c :: rest, cur =>
    if c.isWhitespace then
      if cur.isEmpty then wordsAux rest []
      else cur.reverse :: wordsAux rest []
    else wordsAux rest (c :: cur)

/-- Join words with single spaces (Python `" ".join(words)`). -/
def joinWords : List (List Char) → List Char
  | [] => []
  | [w] => w
  | w :: ws => w ++ ' ' :: joinWords ws

/-- `" ".join(reply.split()).strip()` of `ask_local_model`. -/
def collapseWs (s : String) : String :=
  pyStrip ⟨joinWords (wordsAux s.data [])⟩

/-- Python character-slice `s[:n]`. -/
def pyTake (s : String) (n : ℕ) : String :=
  ⟨s.data.take n⟩

/-- `MIN_REPLY_LENGTH` constant. -/
def MIN_REPLY_LENGTH : ℕ := 3

/-- `MAX_REPLY_LENGTH` constant. -/
def MAX_REPLY_LENGTH : ℕ := 300

/-- The success-path post-processing of `ask_local_model`: strip the
content, remove leakage markers, collapse whitespace, replace too-short
replies by a canned reply, truncate too-long replies with an
ellipsis. -/
def postProcess (content : String) : String :=
  let reply := stripGarbage (pyStrip content)
  let reply := collapseWs reply
  if reply.length < MIN_REPLY_LENGTH then "Чё?"
  else if reply.length > MAX_REPLY_LENGTH then pyTake reply MAX_REPLY_LENGTH ++ "..."
  else reply

/-- `SmartBot.ask_local_model` as a total function of the HTTP outcome:
every failure path is caught and mapped to a fixed fallback string, and
the success path runs the post-processing. -/
def ask_local_model : LMOutcome → String
  | .timedOut => "Модель тупит, долго думает."
  | .httpError _ _ => "Хуйня с сервером, попробуй ещё раз."
  | .noChoices => "Модель затупила, бля."
  | .otherError => "Что-то пошло не так, бля."
  | .success content => postProcess content

/-- Interaction count stored in an optional profile (0 when absent, as
for a freshly created profile before its first increment). -/
def countOf : Option UserProfile → ℕ
  | none => 0
  | some p => p.interaction_count

/-- Relationship tier stored in an optional profile (the fresh-profile
tier when absent). -/
def levelOf : Option UserProfile → String
  | none => "незнакомец"
  | some p => p.relationship_level

/-- Friendliness trait stored in an optional profile (the initial trait
value when absent). -/
def friendOf : Option UserProfile → ℚ
  | none => initialTraits.friendliness
  | some p => p.personality_traits.friendliness

/-- A concrete message used to instantiate theorems with hypotheses. -/
def demoMsg : Message :=
  { user_id := 7, username := "кореш", text := "круто", timestamp := 100
    chat_id := 1, message_id := 1 }

/-- A persisted row 31 days older than the reference time 0. -/
def oldRow : Message := { demoMsg with timestamp := -31 * 86400, message_id := 1 }

/-- A persisted row 1 day older than the reference time 0. -/
def newRow : Message := { demoMsg with timestamp := -86400, message_id := 2 }

/-- A two-row `messages` table for the retention-sweep scenario. -/
def demoTable : List Message := [oldRow, newRow]

/-! Theorems. -/

/-- A one-character pattern occurs in a list exactly when the character
is a member. -/
lemma subList_singleton_of_mem {c : Char} {l : List Char} (h : c ∈ l) :
    subList [c] l = true := by
  induction l with
  | nil => cases h
  | cons a rest ih =>
    rcases List.mem_cons.mp h with rfl | hr
    · simp [subList, leadsWith]
    · simp [subList, ih hr]

/-- Lower-casing maps no character to `@` except `@` itself, so `@`
survives `pyLower`. -/
lemma at_mem_pyLower {s : String} (h : '@' ∈ s.data) :
    '@' ∈ (pyLower s).data := by
  have : pyCharLower '@' ∈ s.data.map pyCharLower := List.mem_map_of_mem pyCharLower h
  simpa [pyLower] using this

/-- C1: for every event arriving in a direct (one-to-one) conversation,
`should_respond` returns `true` together with the direct-channel reason
tag (the string `"private_message"` in the source, named `direct_channel`
in the spec), regardless of the text, the profile, the attachment flag
and both random draws; no later rule is consulted. -/
theorem direct_conversation_always_responds (message : String)
    (profile : Option UserProfile) (has_image : Bool) (r1 r2 : ℚ) :
    should_respond message profile true has_image r1 r2 =
      (true, "private_message") := rfl

/-- C10: `@` is itself one of the bot-address keywords, so every
non-direct event whose text contains `@` anywhere is answered with
reason `direct_mention`, whatever the profile and the random draws. -/
theorem at_sign_triggers_direct_mention (message : String)
    (profile : Option UserProfile) (has_image : Bool) (r1 r2 : ℚ)
    (h : '@' ∈ message.data) :
    should_respond message profile false has_image r1 r2 =
      (true, "direct_mention") := by
  have hc : strContains (pyLower message) "@" = true :=
    subList_singleton_of_mem (at_mem_pyLower h)
  have hany : bot_mentions.any (fun w => strContains (pyLower message) w) = true := by
    simp only [bot_mentions, List.any_cons, List.any_nil, hc]
    simp
  simp [should_respond, hany]

/-- Witness for C10 at a concrete group message containing a mention. -/
theorem at_sign_triggers_direct_mention_witness :
    should_respond "глянь @кореш скинул" none false false 1 1 =
      (true, "direct_mention") :=
  at_sign_triggers_direct_mention "глянь @кореш скинул" none false 1 1 (by decide)

/-- The attachment branch sits on top of the text-dependent sum. -/
lemma calculate_importance_eq (m : Message) :
    calculate_importance m =
      min (importanceBase m + if m.has_image then 3/10 else 0) 1 := by
  unfold calculate_importance importanceBase
  cases m.has_image <;> simp

/-- The text-dependent sum is at least the 0.5 base. -/
lemma importanceBase_nonneg (m : Message) : 0 ≤ importanceBase m := by
  unfold importanceBase
  split_ifs <;> norm_num

/-- C2: the importance score always lies in `[0, 1]`, and for a fixed
text the score with an attachment is at least the score without one. -/
theorem importance_in_unit_and_attachment_monotone (m : Message) :
    0 ≤ calculate_importance m ∧ calculate_importance m ≤ 1 ∧
    calculate_importance { m with has_image := false } ≤
      calculate_importance { m with has_image := true } := by
  have hbase : importanceBase { m with has_image := true } =
      importanceBase { m with has_image := false } := rfl
  have hfalse : ({ m with has_image := false } : Message).has_image = false := rfl
  have htrue : ({ m with has_image := true } : Message).has_image = true := rfl
  refine ⟨?_, ?_, ?_⟩
  · rw [calculate_importance_eq]
    have h0 := importanceBase_nonneg m
    have : (0 : ℚ) ≤ if m.has_image then 3/10 else 0 := by split_ifs <;> norm_num
    exact le_min (by linarith) (by norm_num)
  · rw [calculate_importance_eq]
    exact min_le_right _ _
  · rw [calculate_importance_eq, calculate_importance_eq, hbase, hfalse, htrue]
    have h0 : (if (false : Bool) then (3 : ℚ)/10 else 0) = 0 := rfl
    have h1 : (if (true : Bool) then (3 : ℚ)/10 else 0) = 3/10 := rfl
    rw [h0, h1]
    exact min_le_min (by linarith) le_rfl

/-- `analyze_sentiment` answers `positive` exactly on a strict
positive-count majority. -/
lemma analyze_sentiment_pos_iff (t : String) :
    analyze_sentiment t = "positive" ↔ negCount t < posCount t := by
  unfold analyze_sentiment
  split_ifs with h1 h2
  · exact ⟨fun _ => h1, fun _ => rfl⟩
  · exact ⟨fun h => absurd h (by decide), fun h => absurd h h1⟩
  · exact ⟨fun h => absurd h (by decide), fun h => absurd h h1⟩

/-- `analyze_sentiment` answers `negative` exactly on a strict
negative-count majority. -/
lemma analyze_sentiment_neg_iff (t : String) :
    analyze_sentiment t = "negative" ↔ posCount t < negCount t := by
  unfold analyze_sentiment
  split_ifs with h1 h2
  · exact ⟨fun h => absurd h (by decide), fun h => absurd h1 (by omega)⟩
  · exact ⟨fun _ => h2, fun _ => rfl⟩
  · exact ⟨fun h => absurd h (by decide), fun h => absurd h h2⟩

/-- `analyze_sentiment` answers `neutral` exactly on a tie. -/
lemma analyze_sentiment_neu_iff (t : String) :
    analyze_sentiment t = "neutral" ↔ posCount t = negCount t := by
  unfold analyze_sentiment
  split_ifs with h1 h2
  · exact ⟨fun h => absurd h (by decide), fun h => absurd h1 (by omega)⟩
  · exact ⟨fun h => absurd h (by decide), fun h => absurd h2 (by omega)⟩
  · exact ⟨fun _ => by omega, fun _ => rfl⟩

/-- C3: sentiment is `positive` exactly when positive keyword matches
strictly outnumber negative ones, `negative` in the mirrored case,
`neutral` exactly on ties (including 0–0); and for any second text whose
two counts are the first text's counts swapped, a positive result flips
to negative and vice versa. -/
theorem sentiment_majority_and_symmetry (t : String) :
    (analyze_sentiment t = "positive" ↔ negCount t < posCount t) ∧
    (analyze_sentiment t = "negative" ↔ posCount t < negCount t) ∧
    (analyze_sentiment t = "neutral" ↔ posCount t = negCount t) ∧
    (∀ u : String, posCount u = negCount t → negCount u = posCount t →
      ((analyze_sentiment t = "positive" ↔ analyze_sentiment u = "negative") ∧
       (analyze_sentiment t = "negative" ↔ analyze_sentiment u = "positive"))) := by
  refine ⟨analyze_sentiment_pos_iff t, analyze_sentiment_neg_iff t,
    analyze_sentiment_neu_iff t, ?_⟩
  intro u hpu hnu
  constructor
  · rw [analyze_sentiment_pos_iff, analyze_sentiment_neg_iff, hpu, hnu]
  · rw [analyze_sentiment_neg_iff, analyze_sentiment_pos_iff, hpu, hnu]

/-- Witness for C3 on the pair of opposite-sentiment texts
`круто` / `плохо`, whose keyword counts are (1,0) and (0,1). -/
theorem sentiment_majority_and_symmetry_witness :
    (analyze_sentiment "круто" = "positive" ↔ analyze_sentiment "плохо" = "negative") ∧
    (analyze_sentiment "круто" = "negative" ↔ analyze_sentiment "плохо" = "positive") :=
  (sentiment_majority_and_symmetry "круто").2.2.2 "плохо" (by decide) (by decide)

/-- The bump stage sets the count to the previous count plus one. -/
lemma bumpProfile_count (st : Option UserProfile) (m : Message) :
    (bumpProfile st m).interaction_count = countOf st + 1 := by
  cases st <;> rfl

/-- The bump stage keeps the stored tier. -/
lemma bumpProfile_level (st : Option UserProfile) (m : Message) :
    (bumpProfile st m).relationship_level = levelOf st := by
  cases st <;> rfl

/-- The bump stage keeps the friendliness trait. -/
lemma bumpProfile_friend (st : Option UserProfile) (m : Message) :
    (bumpProfile st m).personality_traits.friendliness = friendOf st := by
  cases st <;> rfl

/-- The attachment stage touches only the interest list. -/
lemma applyImageInterest_count (m : Message) (p : UserProfile) :
    (applyImageInterest m p).interaction_count = p.interaction_count := by
  unfold applyImageInterest
  split_ifs <;> rfl

/-- The attachment stage keeps the stored tier. -/
lemma applyImageInterest_level (m : Message) (p : UserProfile) :
    (applyImageInterest m p).relationship_level = p.relationship_level := by
  unfold applyImageInterest
  split_ifs <;> rfl

/-- The attachment stage keeps the traits. -/
lemma applyImageInterest_traits (m : Message) (p : UserProfile) :
    (applyImageInterest m p).personality_traits = p.personality_traits := by
  unfold applyImageInterest
  split_ifs <;> rfl

/-- The sentiment stage keeps the count. -/
lemma applySentimentTraits_count (m : Message) (p : UserProfile) :
    (applySentimentTraits m p).interaction_count = p.interaction_count := by
  unfold applySentimentTraits
  split_ifs <;> rfl

/-- The sentiment stage keeps the stored tier. -/
lemma applySentimentTraits_level (m : Message) (p : UserProfile) :
    (applySentimentTraits m p).relationship_level = p.relationship_level := by
  unfold applySentimentTraits
  split_ifs <;> rfl

/-- The sentiment stage adds 0.1 to friendliness exactly on positive
sentiment. -/
lemma applySentimentTraits_friend (m : Message) (p : UserProfile) :
    (applySentimentTraits m p).personality_traits.friendliness =
      p.personality_traits.friendliness +
        (if m.sentiment = some "positive" then 1/10 else 0) := by
  unfold applySentimentTraits
  split_ifs <;> simp_all

/-- The humor stage keeps the count. -/
lemma applyHumorTrait_count (m : Message) (p : UserProfile) :
    (applyHumorTrait m p).interaction_count = p.interaction_count := by
  unfold applyHumorTrait
  split_ifs <;> rfl

/-- The humor stage keeps the stored tier. -/
lemma applyHumorTrait_level (m : Message) (p : UserProfile) :
    (applyHumorTrait m p).relationship_level = p.relationship_level := by
  unfold applyHumorTrait
  split_ifs <;> rfl

/-- The humor stage keeps friendliness. -/
lemma applyHumorTrait_friend (m : Message) (p : UserProfile) :
    (applyHumorTrait m p).personality_traits.friendliness =
      p.personality_traits.friendliness := by
  unfold applyHumorTrait
  split_ifs <;> rfl

/-- The tier stage keeps the count. -/
lemma applyTier_count (p : UserProfile) :
    (applyTier p).interaction_count = p.interaction_count := by
  unfold applyTier
  split_ifs <;> rfl

/-- The tier stage keeps the traits. -/
lemma applyTier_traits (p : UserProfile) :
    (applyTier p).personality_traits = p.personality_traits := by
  unfold applyTier
  split_ifs <;> rfl

/-- The tier stage reassigns the tier by the threshold chain. -/
lemma applyTier_level (p : UserProfile) :
    (applyTier p).relationship_level =
      (if p.interaction_count > 50 then "братан"
       else if p.interaction_count > 20 then "приятель"
       else if p.interaction_count > 5 then "знакомый"
       else p.relationship_level) := by
  unfold applyTier
  split_ifs <;> rfl

/-- One profile update increments the interaction count by exactly 1. -/
lemma update_count (st : Option UserProfile) (m : Message) :
    (update_user_profile st m).interaction_count = countOf st + 1 := by
  unfold update_user_profile
  rw [applyTier_count, applyHumorTrait_count, applySentimentTraits_count,
    applyImageInterest_count, bumpProfile_count]

/-- One profile update reassigns the tier by the threshold chain on the
new count, keeping the previous tier below all thresholds. -/
lemma update_level (st : Option UserProfile) (m : Message) :
    (update_user_profile st m).relationship_level =
      (if countOf st + 1 > 50 then "братан"
       else if countOf st + 1 > 20 then "приятель"
       else if countOf st + 1 > 5 then "знакомый"
       else levelOf st) := by
  unfold update_user_profile
  rw [applyTier_level, applyHumorTrait_count, applySentimentTraits_count,
    applyImageInterest_count, bumpProfile_count, applyHumorTrait_level,
    applySentimentTraits_level, applyImageInterest_level, bumpProfile_level]

/-- One profile update adds 0.1 to friendliness exactly on positive
sentiment. -/
lemma update_friend (st : Option UserProfile) (m : Message) :
    (update_user_profile st m).personality_traits.friendliness =
      friendOf st + (if m.sentiment = some "positive" then 1/10 else 0) := by
  unfold update_user_profile
  rw [applyTier_traits, applyHumorTrait_friend, applySentimentTraits_friend,
    applyImageInterest_traits, bumpProfile_friend]

/-- The tier stored in a profile matches the count-determined band. -/
def TierInv (st : Int → Option UserProfile) : Prop :=
  ∀ uid p, st uid = some p →
    p.relationship_level = relationshipBand p.interaction_count

/-- Counts of at most five keep the stranger band. -/
lemma relationshipBand_of_le_five {c : ℕ} (h : c ≤ 5) :
    relationshipBand c = "незнакомец" := by
  unfold relationshipBand
  split_ifs <;> first | rfl | omega

/-- One ingestion step preserves the tier-band invariant. -/
lemma tierInv_step {st : Int → Option UserProfile} (h : TierInv st)
    (m : Message) : TierInv (step st m) := by
  intro uid p hp
  unfold step at hp
  split_ifs at hp with huid
  · injection hp with hp
    subst hp
    rw [processMessage] at *
    rw [update_count, update_level]
    unfold relationshipBand
    split_ifs with h1 h2 h3
    · rfl
    · rfl
    · rfl
    · cases hst : st m.user_id with
      | none => simp [levelOf]
      | some q =>
        have hq := h m.user_id q hst
        have hcq : countOf (st m.user_id) = q.interaction_count := by
          rw [hst]; rfl
        rw [hcq] at h3
        simp only [levelOf, hst]
        rw [hq, relationshipBand_of_le_five (by omega)]
  · exact h uid p hp

/-- The empty profile dict satisfies the invariant. -/
lemma tierInv_nil : TierInv (fun _ => none) := by
  intro uid p hp
  cases hp

/-- Folding any message list preserves the tier-band invariant. -/
lemma tierInv_foldl (ms : List Message) (st : Int → Option UserProfile)
    (h : TierInv st) : TierInv (ms.foldl step st) := by
  induction ms generalizing st with
  | nil => exact h
  | cons m ms ih => exact ih (step st m) (tierInv_step h m)

/-- One ingestion step never decreases an author's interaction count. -/
lemma countOf_step_le (st : Int → Option UserProfile) (m : Message)
    (uid : Int) : countOf (st uid) ≤ countOf (step st m uid) := by
  unfold step
  split_ifs with huid
  · subst huid
    rw [processMessage]
    show countOf (st m.user_id) ≤
      (update_user_profile (st m.user_id) _).interaction_count
    rw [update_count]
    omega
  · exact le_rfl

/-- Folding messages never decreases an author's interaction count. -/
lemma countOf_foldl_le (ms : List Message) (st : Int → Option UserProfile)
    (uid : Int) : countOf (st uid) ≤ countOf ((ms.foldl step st) uid) := by
  induction ms generalizing st with
  | nil => exact le_rfl
  | cons m ms ih => exact le_trans (countOf_step_le st m uid) (ih (step st m))

/-- The tier rank of the band is monotone in the count. -/
lemma tierRank_band_mono {c d : ℕ} (h : c ≤ d) :
    tierRank (relationshipBand c) ≤ tierRank (relationshipBand d) := by
  unfold relationshipBand
  split_ifs <;> first | decide | omega

/-- C4: after any update sequence, an author's stored relationship tier
is exactly the band of the interaction count, and since the count only
grows, the tier never decreases when further messages are ingested. -/
theorem tier_is_band_and_monotone (ms : List Message) (uid : Int)
    (p : UserProfile) (h : profilesAfter ms uid = some p) :
    p.relationship_level = relationshipBand p.interaction_count ∧
    ∀ ms2 q, profilesAfter (ms ++ ms2) uid = some q →
      tierRank p.relationship_level ≤ tierRank q.relationship_level := by
  have hinv : TierInv (profilesAfter ms) := tierInv_foldl ms _ tierInv_nil
  have h1 := hinv uid p h
  refine ⟨h1, ?_⟩
  intro ms2 q hq
  have hinv2 : TierInv (profilesAfter (ms ++ ms2)) :=
    tierInv_foldl (ms ++ ms2) _ tierInv_nil
  have h2 := hinv2 uid q hq
  have hcnt : countOf (profilesAfter ms uid) ≤
      countOf (profilesAfter (ms ++ ms2) uid) := by
    unfold profilesAfter
    rw [List.foldl_append]
    exact countOf_foldl_le ms2 _ uid
  rw [h, hq] at hcnt
  rw [h1, h2]
  exact tierRank_band_mono hcnt

/-- Witness for C4: one concrete message from a fresh author. -/
theorem tier_is_band_and_monotone_witness :
    (processMessage none demoMsg).relationship_level =
      relationshipBand (processMessage none demoMsg).interaction_count ∧
    ∀ ms2 q, profilesAfter ([demoMsg] ++ ms2) 7 = some q →
      tierRank (processMessage none demoMsg).relationship_level ≤
        tierRank q.relationship_level :=
  tier_is_band_and_monotone [demoMsg] 7 (processMessage none demoMsg) rfl

/-- Unfolding equations for `countOf`. -/
lemma countOf_some (p : UserProfile) : countOf (some p) = p.interaction_count := rfl

/-- Sentiment is positive whenever some positive keyword occurs in the
text and no negative keyword does. -/
lemma analyze_sentiment_positive_of (t : String)
    (hp : ∃ w ∈ positive_words, strContains (pyLower t) w = true)
    (hn : ∀ w ∈ negative_words, strContains (pyLower t) w = false) :
    analyze_sentiment t = "positive" := by
  rw [analyze_sentiment_pos_iff]
  have hneg : negCount t = 0 := by
    unfold negCount
    rw [List.length_eq_zero, List.filter_eq_nil_iff]
    intro w hw
    simp [hn w hw]
  have hpos : 0 < posCount t := by
    obtain ⟨w, hw, hc⟩ := hp
    unfold posCount
    rw [List.length_pos]
    intro hnil
    have hmem : w ∈ positive_words.filter (fun w => strContains (pyLower t) w) :=
      List.mem_filter.mpr ⟨hw, hc⟩
    rw [hnil] at hmem
    cases hmem
  omega

/-- C9: two events from the same previously unknown author, each with a
positive keyword and no negative keyword, leave the author's profile
with friendliness equal to its initial value plus 0.2, interaction count
2, and the stranger tier. -/
theorem two_positive_events_profile (m1 m2 : Message)
    (huid : m2.user_id = m1.user_id)
    (hp1 : ∃ w ∈ positive_words, strContains (pyLower m1.text) w = true)
    (hn1 : ∀ w ∈ negative_words, strContains (pyLower m1.text) w = false)
    (hp2 : ∃ w ∈ positive_words, strContains (pyLower m2.text) w = true)
    (hn2 : ∀ w ∈ negative_words, strContains (pyLower m2.text) w = false) :
    ∃ p, profilesAfter [m1, m2] m1.user_id = some p ∧
      p.personality_traits.friendliness = initialTraits.friendliness + 1/5 ∧
      p.interaction_count = 2 ∧
      p.relationship_level = "незнакомец" := by
  have hs1 := analyze_sentiment_positive_of m1.text hp1 hn1
  have hs2 := analyze_sentiment_positive_of m2.text hp2 hn2
  have hstep : profilesAfter [m1, m2] m1.user_id =
      some (processMessage (some (processMessage none m1)) m2) := by
    unfold profilesAfter step
    simp [huid]
  have hc1 : (processMessage none m1).interaction_count = 1 := by
    rw [processMessage, update_count]
    rfl
  have hf1 : (processMessage none m1).personality_traits.friendliness =
      initialTraits.friendliness + 1/10 := by
    rw [processMessage, update_friend]
    simp [friendOf, hs1]
  have hl1 : (processMessage none m1).relationship_level = "незнакомец" := by
    rw [processMessage, update_level]
    norm_num [countOf, levelOf]
  refine ⟨_, hstep, ?_, ?_, ?_⟩
  · rw [processMessage, update_friend]
    simp [friendOf, hs2, hf1]
    ring
  · rw [processMessage, update_count, countOf_some, hc1]
  · rw [processMessage, update_level]
    simp [countOf_some, hc1, levelOf, hl1]

/-- Witness for C9 with two copies of a concrete positive message. -/
theorem two_positive_events_profile_witness :
    ∃ p, profilesAfter [demoMsg, demoMsg] 7 = some p ∧
      p.personality_traits.friendliness = initialTraits.friendliness + 1/5 ∧
      p.interaction_count = 2 ∧
      p.relationship_level = "незнакомец" :=
  two_positive_events_profile demoMsg demoMsg rfl
    (by decide) (by decide) (by decide) (by decide)

/-- Complementary filters split the length of a list. -/
lemma length_filter_add_length_filter_not {α : Type} (p : α → Bool) (l : List α) :
    (l.filter p).length + (l.filter (fun a => !p a)).length = l.length := by
  induction l with
  | nil => rfl
  | cons a l ih => cases hpa : p a <;> simp [List.filter_cons, hpa] <;> omega

/-- C6 counterexample: on the 31-day-old / 1-day-old store, the sweep
deletes exactly the old row and logs the deleted count 1, but the
function's return value is `None`: the deleted count is not returned to
the caller, contrary to the claim. -/
theorem cleanup_returns_no_count :
    (cleanup_old_messages demoTable 0 30).remaining = [newRow] ∧
    (cleanup_old_messages demoTable 0 30).logged_deleted = 1 ∧
    ∀ n : ℕ, (cleanup_old_messages demoTable 0 30).returned ≠ some n := by
  refine ⟨?_, ?_, fun n h => ?_⟩
  · unfold cleanup_old_messages demoTable
    norm_num [oldRow, newRow, demoMsg, List.filter_cons]
  · unfold cleanup_old_messages demoTable
    norm_num [oldRow, newRow, demoMsg, List.filter_cons]
  · rw [show (cleanup_old_messages demoTable 0 30).returned = none from rfl] at h
    exact Option.noConfusion h

/-- C6 amended: `cleanup_old_messages` deletes exactly the rows older
than the horizon (a row survives iff it is not older than the cutoff,
survivors keep their relative order) and logs the deleted count, but it
returns no value (`None`) to its caller rather than the count. -/
theorem cleanup_deletes_exactly_older (table : List Message) (now : ℚ)
    (days : ℕ) (r : Message) (h : r ∈ table) :
    (r ∈ (cleanup_old_messages table now days).remaining ↔
      ¬ r.timestamp < now - (days : ℚ) * 24 * 3600) ∧
    (cleanup_old_messages table now days).remaining.Sublist table ∧
    (cleanup_old_messages table now days).logged_deleted +
      (cleanup_old_messages table now days).remaining.length = table.length ∧
    (cleanup_old_messages table now days).returned = none := by
  refine ⟨?_, ?_, ?_, rfl⟩
  · unfold cleanup_old_messages
    simp [List.mem_filter, h]
  · exact List.filter_sublist _
  · exact length_filter_add_length_filter_not _ table

/-- Witness for C6 on the two-row store: the newer row survives. -/
theorem cleanup_deletes_exactly_older_witness :
    (newRow ∈ (cleanup_old_messages demoTable 0 30).remaining ↔
      ¬ newRow.timestamp < 0 - ((30 : ℕ) : ℚ) * 24 * 3600) ∧
    (cleanup_old_messages demoTable 0 30).remaining.Sublist demoTable ∧
    (cleanup_old_messages demoTable 0 30).logged_deleted +
      (cleanup_old_messages demoTable 0 30).remaining.length = demoTable.length ∧
    (cleanup_old_messages demoTable 0 30).returned = none :=
  cleanup_deletes_exactly_older demoTable 0 30 newRow (by simp [demoTable])

/-- A positive greeting check pins down weekday, window and the
not-yet-sent condition. -/
lemma should_send_greeting_true {now : MoscowTime} {st : SchedulerState}
    (h : should_send_greeting now st = true) :
    weekdayOf now < 5 ∧ 8 ≤ now.hour ∧ now.hour < 9 ∧
      st.last_greeting_date ≠ some now.day := by
  unfold should_send_greeting at h
  split_ifs at h with h1 h2 h3
  · exact ⟨by omega, h2.1, h2.2, h3⟩

/-- A positive farewell check pins down weekday, window and the
not-yet-sent condition. -/
lemma should_send_farewell_true {now : MoscowTime} {st : SchedulerState}
    (h : should_send_farewell now st = true) :
    weekdayOf now < 5 ∧ 17 ≤ now.hour ∧ now.hour < 18 ∧
      st.last_farewell_date ≠ some now.day := by
  unfold should_send_farewell at h
  split_ifs at h with h1 h2 h3
  · exact ⟨by omega, h2.1, h2.2, h3⟩

/-- The farewell check ignores the greeting date. -/
lemma should_send_farewell_greet_update (now : MoscowTime)
    (st : SchedulerState) (x : Option ℕ) :
    should_send_farewell now { st with last_greeting_date := x } =
      should_send_farewell now st := rfl

/-- Closed form of one scheduler tick: the two slots fire independently
by their own checks against the pre-tick state, and each slot's date is
stamped exactly when it fires. -/
lemma scheduler_tick_eq (t : MoscowTime) (st : SchedulerState) :
    scheduler_tick t st =
      ((should_send_greeting t st, should_send_farewell t st),
       { last_greeting_date :=
           if should_send_greeting t st then some t.day
           else st.last_greeting_date,
         last_farewell_date :=
           if should_send_farewell t st then some t.day
           else st.last_farewell_date }) := by
  unfold scheduler_tick
  by_cases hg : should_send_greeting t st = true <;>
    simp [hg, should_send_farewell_greet_update] <;>
    by_cases hf : should_send_farewell t st = true <;>
    simp [hf]

/-- Unfolding equation for a scheduler run step. -/
lemma scheduler_run_cons (t : MoscowTime) (ts : List MoscowTime)
    (st : SchedulerState) :
    scheduler_run (t :: ts) st =
      ((t, (scheduler_tick t st).1) ::
          (scheduler_run ts (scheduler_tick t st).2).1,
        (scheduler_run ts (scheduler_tick t st).2).2) := rfl

/-- Once the greeting date records the current day, no same-day tick
fires the morning slot again. -/
lemma run_greet_count_zero (d : ℕ) :
    ∀ (ticks : List MoscowTime) (st : SchedulerState),
      (∀ t ∈ ticks, t.day = d) → st.last_greeting_date = some d →
      (scheduler_run ticks st).1.countP (fun e => e.2.1) = 0
  | [], st, _, _ => by simp [scheduler_run]
  | t :: ts, st, hd, hst => by
    have htd : t.day = d := hd t (List.mem_cons_self t ts)
    have hd' : ∀ u ∈ ts, u.day = d := fun u hu => hd u (List.mem_cons_of_mem t hu)
    have hg : should_send_greeting t st = false := by
      cases hsg : should_send_greeting t st
      · rfl
      · have hne := (should_send_greeting_true hsg).2.2.2
        rw [htd] at hne
        exact absurd hst hne
    rw [scheduler_run_cons, List.countP_cons, scheduler_tick_eq]
    have hrest := run_greet_count_zero d ts
      { last_greeting_date := st.last_greeting_date,
        last_farewell_date :=
          if should_send_farewell t st then some t.day
          else st.last_farewell_date } hd' hst
    simp [hg, hrest]

/-- Same-day greeting firings never exceed one. -/
lemma run_greet_count_le_one (d : ℕ) :
    ∀ (ticks : List MoscowTime) (st : SchedulerState),
      (∀ t ∈ ticks, t.day = d) →
      (scheduler_run ticks st).1.countP (fun e => e.2.1) ≤ 1
  | [], st, _ => by simp [scheduler_run]
  | t :: ts, st, hd => by
    have htd : t.day = d := hd t (List.mem_cons_self t ts)
    have hd' : ∀ u ∈ ts, u.day = d := fun u hu => hd u (List.mem_cons_of_mem t hu)
    rw [scheduler_run_cons, List.countP_cons, scheduler_tick_eq]
    by_cases hg : should_send_greeting t st = true
    · have hrest := run_greet_count_zero d ts
        { last_greeting_date := some t.day,
          last_farewell_date :=
            if should_send_farewell t st then some t.day
            else st.last_farewell_date } hd' (by rw [htd])
      simp [hg, hrest]
    · have hg' : should_send_greeting t st = false := by
        cases hsg : should_send_greeting t st
        · rfl
        · exact absurd hsg hg
      have hrest := run_greet_count_le_one d ts
        { last_greeting_date := st.last_greeting_date,
          last_farewell_date :=
            if should_send_farewell t st then some t.day
            else st.last_farewell_date } hd'
      simp [hg', hrest]

/-- Once the farewell date records the current day, no same-day tick
fires the evening slot again. -/
lemma run_farewell_count_zero (d : ℕ) :
    ∀ (ticks : List MoscowTime) (st : SchedulerState),
      (∀ t ∈ ticks, t.day = d) → st.last_farewell_date = some d →
      (scheduler_run ticks st).1.countP (fun e => e.2.2) = 0
  | [], st, _, _ => by simp [scheduler_run]
  | t :: ts, st, hd, hst => by
    have htd : t.day = d := hd t (List.mem_cons_self t ts)
    have hd' : ∀ u ∈ ts, u.day = d := fun u hu => hd u (List.mem_cons_of_mem t hu)
    have hf : should_send_farewell t st = false := by
      cases hsf : should_send_farewell t st
      · rfl
      · have hne := (should_send_farewell_true hsf).2.2.2
        rw [htd] at hne
        exact absurd hst hne
    rw [scheduler_run_cons, List.countP_cons, scheduler_tick_eq]
    have hrest := run_farewell_count_zero d ts
      { last_greeting_date :=
          if should_send_greeting t st then some t.day
          else st.last_greeting_date,
        last_farewell_date := st.last_farewell_date } hd' hst
    simp [hf, hrest]

/-- Same-day farewell firings never exceed one. -/
lemma run_farewell_count_le_one (d : ℕ) :
    ∀ (ticks : List MoscowTime) (st : SchedulerState),
      (∀ t ∈ ticks, t.day = d) →
      (scheduler_run ticks st).1.countP (fun e => e.2.2) ≤ 1
  | [], st, _ => by simp [scheduler_run]
  | t :: ts, st, hd => by
    have htd : t.day = d := hd t (List.mem_cons_self t ts)
    have hd' : ∀ u ∈ ts, u.day = d := fun u hu => hd u (List.mem_cons_of_mem t hu)
    rw [scheduler_run_cons, List.countP_cons, scheduler_tick_eq]
    by_cases hf : should_send_farewell t st = true
    · have hrest := run_farewell_count_zero d ts
        { last_greeting_date :=
            if should_send_greeting t st then some t.day
            else st.last_greeting_date,
          last_farewell_date := some t.day } hd' (by rw [htd])
      simp [hf, hrest]
    · have hf' : should_send_farewell t st = false := by
        cases hsf : should_send_farewell t st
        · rfl
        · exact absurd hsf hf
      have hrest := run_farewell_count_le_one d ts
        { last_greeting_date :=
            if should_send_greeting t st then some t.day
            else st.last_greeting_date,
          last_farewell_date := st.last_farewell_date } hd'
      simp [hf', hrest]

/-- Every fired log entry satisfies its slot's weekday and window
conditions. -/
lemma run_entries_window :
    ∀ (ticks : List MoscowTime) (st : SchedulerState),
      ∀ e ∈ (scheduler_run ticks st).1,
        (e.2.1 = true → weekdayOf e.1 < 5 ∧ 8 ≤ e.1.hour ∧ e.1.hour < 9) ∧
        (e.2.2 = true → weekdayOf e.1 < 5 ∧ 17 ≤ e.1.hour ∧ e.1.hour < 18)
  | [], _, e, he => by simp [scheduler_run] at he
  | t :: ts, st, e, he => by
    rw [scheduler_run_cons] at he
    rcases List.mem_cons.mp he with rfl | hrest
    · constructor
      · intro hg
        have : should_send_greeting t st = true := by
          rw [scheduler_tick_eq] at hg
          exact hg
        have h := should_send_greeting_true this
        exact ⟨h.1, h.2.1, h.2.2.1⟩
      · intro hf
        have : should_send_farewell t st = true := by
          rw [scheduler_tick_eq] at hf
          exact hf
        have h := should_send_farewell_true this
        exact ⟨h.1, h.2.1, h.2.2.1⟩
    · exact run_entries_window ts (scheduler_tick t st).2 e hrest

/-- C7: over any tick sequence within one calendar day, each announcer
slot fires at most once, every firing happens on a Monday–Friday tick
inside the slot's one-hour window, and (by the count bound) a tick after
the slot has been sent that day cannot fire it again. -/
theorem announcer_once_per_day_in_window (st0 : SchedulerState)
    (ticks : List MoscowTime) (d : ℕ) (hd : ∀ t ∈ ticks, t.day = d) :
    (scheduler_run ticks st0).1.countP (fun e => e.2.1) ≤ 1 ∧
    (scheduler_run ticks st0).1.countP (fun e => e.2.2) ≤ 1 ∧
    ∀ e ∈ (scheduler_run ticks st0).1,
      (e.2.1 = true → weekdayOf e.1 < 5 ∧ 8 ≤ e.1.hour ∧ e.1.hour < 9) ∧
      (e.2.2 = true → weekdayOf e.1 < 5 ∧ 17 ≤ e.1.hour ∧ e.1.hour < 18) := by
  exact ⟨run_greet_count_le_one d ticks st0 hd,
    run_farewell_count_le_one d ticks st0 hd,
    run_entries_window ticks st0⟩

/-- Witness for C7: a Monday with two ticks inside the morning window
and one tick in each of the evening window and past it. -/
theorem announcer_once_per_day_in_window_witness :
    (scheduler_run [⟨0, 8⟩, ⟨0, 8⟩, ⟨0, 17⟩, ⟨0, 18⟩] {}).1.countP
        (fun e => e.2.1) ≤ 1 ∧
    (scheduler_run [⟨0, 8⟩, ⟨0, 8⟩, ⟨0, 17⟩, ⟨0, 18⟩] {}).1.countP
        (fun e => e.2.2) ≤ 1 ∧
    ∀ e ∈ (scheduler_run [⟨0, 8⟩, ⟨0, 8⟩, ⟨0, 17⟩, ⟨0, 18⟩]
        ({} : SchedulerState)).1,
      (e.2.1 = true → weekdayOf e.1 < 5 ∧ 8 ≤ e.1.hour ∧ e.1.hour < 9) ∧
      (e.2.2 = true → weekdayOf e.1 < 5 ∧ 17 ≤ e.1.hour ∧ e.1.hour < 18) :=
  announcer_once_per_day_in_window {} [⟨0, 8⟩, ⟨0, 8⟩, ⟨0, 17⟩, ⟨0, 18⟩] 0
    (by decide)

/-- Length of a Python-style character slice. -/
lemma pyTake_length (s : String) (n : ℕ) :
    (pyTake s n).length = min n s.length := by
  show (s.data.take n).length = min n s.data.length
  exact List.length_take n s.data

/-- C8: the inference call is a total function into strings: each failure
case yields its fixed fallback, the success case is post-processed, a
too-short cleaned reply is replaced by the canned reply, a too-long one
is truncated to the maximum length with an appended ellipsis, and every
possible result length lies between the minimum reply length and the
maximum plus the three ellipsis characters. -/
theorem ask_local_model_total_and_bounded (r : LMOutcome) :
    (MIN_REPLY_LENGTH ≤ (ask_local_model r).length ∧
      (ask_local_model r).length ≤ MAX_REPLY_LENGTH + 3) ∧
    ask_local_model .timedOut = "Модель тупит, долго думает." ∧
    (∀ s b, ask_local_model (.httpError s b) = "Хуйня с сервером, попробуй ещё раз.") ∧
    ask_local_model .noChoices = "Модель затупила, бля." ∧
    ask_local_model .otherError = "Что-то пошло не так, бля." ∧
    (∀ c, r = .success c →
      ask_local_model r = postProcess c ∧
      ((collapseWs (stripGarbage (pyStrip c))).length < MIN_REPLY_LENGTH →
        ask_local_model r = "Чё?") ∧
      ((collapseWs (stripGarbage (pyStrip c))).length > MAX_REPLY_LENGTH →
        ask_local_model r =
          pyTake (collapseWs (stripGarbage (pyStrip c))) MAX_REPLY_LENGTH ++ "...")) := by
  refine ⟨?_, rfl, fun s b => rfl, rfl, rfl, ?_⟩
  · cases r with
    | timedOut => exact ⟨by decide, by decide⟩
    | httpError s b =>
      simp only [ask_local_model]
      exact ⟨by decide, by decide⟩
    | noChoices => exact ⟨by decide, by decide⟩
    | otherError => exact ⟨by decide, by decide⟩
    | success c =>
      show MIN_REPLY_LENGTH ≤ (postProcess c).length ∧
        (postProcess c).length ≤ MAX_REPLY_LENGTH + 3
      simp only [postProcess]
      split_ifs with h1 h2
      · exact ⟨by decide, by decide⟩
      · constructor
        · rw [String.length_append, pyTake_length]
          unfold MIN_REPLY_LENGTH MAX_REPLY_LENGTH at *
          have : ("..." : String).length = 3 := by decide
          omega
        · rw [String.length_append, pyTake_length]
          unfold MIN_REPLY_LENGTH MAX_REPLY_LENGTH at *
          have : ("..." : String).length = 3 := by decide
          omega
      · unfold MIN_REPLY_LENGTH MAX_REPLY_LENGTH at *
        omega
  · intro c hc
    subst hc
    refine ⟨rfl, fun h => ?_, fun h => ?_⟩
    · show postProcess c = _
      simp only [postProcess]
      rw [if_pos h]
    · show postProcess c = _
      simp only [postProcess]
      rw [if_neg (by unfold MIN_REPLY_LENGTH MAX_REPLY_LENGTH at *; omega), if_pos h]

/-- Witness for C8: a two-character reply is replaced by the canned short
reply. -/
theorem ask_local_model_total_and_bounded_witness :
    ask_local_model (.success "ок") = "Чё?" :=
  ((ask_local_model_total_and_bounded (.success "ок")).2.2.2.2.2 "ок" rfl).2.1
    (by decide)

/-- Appending one element to a 1000-capped suffix and re-capping keeps
exactly the last 1000 elements of the extended list. -/
lemma keep_last_append {α : Type} (full : List α) (a : α) :
    (full.drop (full.length - 1000) ++ [a]).drop
        ((full.drop (full.length - 1000) ++ [a]).length - 1000) =
      (full ++ [a]).drop ((full ++ [a]).length - 1000) := by
  have hsing : ([a] : List α).length = 1 := rfl
  have hlenS : (full.drop (full.length - 1000)).length =
      full.length - (full.length - 1000) := List.length_drop _ _
  have hlenSA : (full.drop (full.length - 1000) ++ [a]).length =
      full.length - (full.length - 1000) + 1 := by
    rw [List.length_append, hlenS, hsing]
  have hlenFA : (full ++ [a]).length = full.length + 1 := by
    rw [List.length_append, hsing]
  by_cases hk : 1000 ≤ full.length
  · have h1 : (full.drop (full.length - 1000) ++ [a]).length - 1000 = 1 := by
      omega
    have h2 : (full ++ [a]).length - 1000 = full.length + 1 - 1000 := by
      omega
    have h3 : full.length - 1000 + 1 = full.length + 1 - 1000 := by
      omega
    rw [h1, h2, List.drop_append_of_le_length (by omega),
      List.drop_append_of_le_length (by omega), List.drop_drop, h3]
  · have h1 : (full.drop (full.length - 1000) ++ [a]).length - 1000 = 0 := by
      omega
    have h2 : (full ++ [a]).length - 1000 = 0 := by
      omega
    have h0 : full.length - 1000 = 0 := by
      omega
    rw [h1, h2, h0, List.drop_zero, List.drop_zero, List.drop_zero]

set_option maxRecDepth 20000 in
/-- FIFO closed form: after ingesting any message sequence into an empty
index, the stored embeddings and messages are exactly the last 1000
entries of the (mapped) sequence. -/
lemma addAll_closed (encoder : String → List ℚ) (ms : List Message) :
    (addAll encoder ms).embeddings =
      (ms.map (fun x => encoder (textForEmbedding x))).drop (ms.length - 1000) ∧
    (addAll encoder ms).messages = ms.drop (ms.length - 1000) := by
  induction ms using List.reverseRecOn with
  | nil => exact ⟨rfl, rfl⟩
  | append_singleton ms m ih =>
    obtain ⟨he, hm⟩ := ih
    have hstep : addAll encoder (ms ++ [m]) =
        VectorMemory.add_message encoder (addAll encoder ms) m := by
      unfold addAll
      rw [List.foldl_append]
      rfl
    have he' : (addAll encoder ms).embeddings =
        (ms.map (fun x => encoder (textForEmbedding x))).drop
          ((ms.map (fun x => encoder (textForEmbedding x))).length - 1000) := by
      rw [List.length_map]
      exact he
    rw [hstep]
    simp only [VectorMemory.add_message]
    split_ifs with hcond
    · constructor
      · show ((addAll encoder ms).embeddings ++ [encoder (textForEmbedding m)]).drop
            (((addAll encoder ms).embeddings ++
              [encoder (textForEmbedding m)]).length - 1000) =
          ((ms ++ [m]).map (fun x => encoder (textForEmbedding x))).drop
            ((ms ++ [m]).length - 1000)
        rw [he', keep_last_append]
        have hm1 : (ms ++ [m]).map (fun x => encoder (textForEmbedding x)) =
            ms.map (fun x => encoder (textForEmbedding x)) ++
              [encoder (textForEmbedding m)] := by
          simp
        have hm2 : (ms.map (fun x => encoder (textForEmbedding x)) ++
            [encoder (textForEmbedding m)]).length = (ms ++ [m]).length := by
          simp
        rw [hm1, hm2]
      · show ((addAll encoder ms).messages ++ [m]).drop
            (((addAll encoder ms).messages ++ [m]).length - 1000) =
          (ms ++ [m]).drop ((ms ++ [m]).length - 1000)
        rw [hm, keep_last_append]
    · have hlenE : (addAll encoder ms).embeddings.length = min 1000 ms.length := by
        rw [he, List.length_drop, List.length_map]
        omega
      have hsmall : ms.length < 1000 := by
        rw [List.length_append, hlenE] at hcond
        simp at hcond
        omega
      constructor
      · show (addAll encoder ms).embeddings ++ [encoder (textForEmbedding m)] =
          ((ms ++ [m]).map (fun x => encoder (textForEmbedding x))).drop
            ((ms ++ [m]).length - 1000)
        rw [he, List.map_append, Nat.sub_eq_zero_of_le (by omega), List.drop_zero,
          Nat.sub_eq_zero_of_le (by simp; omega), List.drop_zero]
        simp
      · show (addAll encoder ms).messages ++ [m] =
          (ms ++ [m]).drop ((ms ++ [m]).length - 1000)
        rw [hm, Nat.sub_eq_zero_of_le (by omega), List.drop_zero,
          Nat.sub_eq_zero_of_le (by simp; omega), List.drop_zero]

/-- Everything `search_similar` returns sits at an index whose similarity
to the query exceeds the 0.3 threshold. -/
lemma search_similar_mem (encoder : String → List ℚ) (vm : VectorMemory)
    (query : String) (limit : ℕ) (m : Message)
    (h : m ∈ VectorMemory.search_similar encoder vm query limit) :
    ∃ i, i < (simScores encoder vm query).length ∧
      (3 : ℚ)/10 < (simScores encoder vm query).getD i 0 ∧
      m = vm.messages.getD i defaultMessage := by
  simp only [VectorMemory.search_similar] at h
  split_ifs at h with hemp
  · cases h
  · obtain ⟨i, hi, hmi⟩ := List.mem_map.mp h
    obtain ⟨htop, hsim⟩ := List.mem_filter.mp hi
    have h1 : i ∈ (List.range (simScores encoder vm query).length).mergeSort
        (fun i j => decide ((simScores encoder vm query).getD i 0 ≤
          (simScores encoder vm query).getD j 0)) :=
      List.mem_of_mem_drop (List.mem_reverse.mp htop)
    have h2 : i ∈ List.range (simScores encoder vm query).length :=
      List.mem_mergeSort.mp h1
    exact ⟨i, List.mem_range.mp h2, of_decide_eq_true hsim, hmi.symm⟩

/-- C5: the Vector Index never holds more than 1000 entries and keeps
exactly the most recent ones (oldest evicted first); `search_similar`
only returns messages whose similarity to the query exceeds 0.3; and
searching an empty index returns the empty sequence. -/
theorem vector_index_capacity_and_threshold (encoder : String → List ℚ) :
    (∀ ms : List Message,
      (addAll encoder ms).messages = ms.drop (ms.length - 1000) ∧
      (addAll encoder ms).messages.length ≤ 1000) ∧
    (∀ (vm : VectorMemory) (query : String) (limit : ℕ) (m : Message),
      m ∈ VectorMemory.search_similar encoder vm query limit →
      ∃ i, i < (simScores encoder vm query).length ∧
        (3 : ℚ)/10 < (simScores encoder vm query).getD i 0 ∧
        m = vm.messages.getD i defaultMessage) ∧
    (∀ (query : String) (limit : ℕ),
      VectorMemory.search_similar encoder ⟨[], []⟩ query limit = []) := by
  refine ⟨fun ms => ⟨(addAll_closed encoder ms).2, ?_⟩,
    search_similar_mem encoder, fun query limit => rfl⟩
  rw [(addAll_closed encoder ms).2, List.length_drop]
  omega

/-- Witness for C5: a one-entry index with a matching embedding returns
its message, whose similarity 1 exceeds the threshold. -/
theorem vector_index_capacity_and_threshold_witness :
    ∃ i, i < (simScores (fun _ => [1]) ⟨[[1]], [demoMsg]⟩ "q").length ∧
      (3 : ℚ)/10 < (simScores (fun _ => [1]) ⟨[[1]], [demoMsg]⟩ "q").getD i 0 ∧
      demoMsg = (⟨[[1]], [demoMsg]⟩ : VectorMemory).messages.getD i defaultMessage :=
  (vector_index_capacity_and_threshold (fun _ => [1])).2.1
    ⟨[[1]], [demoMsg]⟩ "q" 5 demoMsg
    (by
      simp only [VectorMemory.search_similar, simScores, dot]
      norm_num [List.filter_cons]
      exact ⟨0, ⟨rfl, by norm_num⟩, by simp⟩)

end BydlanBot
